import Mathlib

/-!
Verification development for the FHIR query-builder core (src/agents.py).

The Python module is shallowly embedded:

* The pydantic models `SearchParameter`, `ResourceMetadata`, `FHIRMetadata`,
  `SelectedResourceType`, `SelectTypeError`, `CreateQueryOutput` and
  `CreateQueryError` become Lean structures.  A Python `dict[str, ...]` is
  modelled as an insertion-ordered association list with overwriting
  assignment (`dictSet`), exactly mirroring `dict` semantics.
* `fetch_searchable_resources` is modelled by `fetchParse`, acting on an
  already parsed capability statement.  Python exceptions are modelled by
  the `FetchErr` sum: `schemaError` stands for the `ValueError`s raised by
  the function itself, `keyError` for an unguarded `x[...]` subscript on a
  missing dictionary key, and `validationError` for pydantic rejecting a
  field (e.g. a `searchParam` entry without a name, or an interaction
  without a code, since `interactions : list[str]` cannot hold `None`).
* `CreateQueryAgent.__init__` runs `_build_system_prompt` at construction
  time; `buildSystemPrompt` models it in state-passing style, returning
  both the prompt inputs and the metadata after the call, because the
  Python code sorts `include_values` / `revinclude_values` in place on the
  shared metadata object.
* The pydantic output validation performed by the two agents
  (`output_type=list[SelectedResourceType] | SelectTypeError` and
  `output_type=CreateQueryOutput | CreateQueryError`) is modelled by
  `validateSelectionOutput` / `validateSynthOutput` on raw model output.
* Python floats only ever meet the bounds checks `ge=0.0` / `le=1.0`
  here, so confidence scores are modelled as rationals; Python strings are
  compared code point by code point, modelled by `charsLe` on `List Char`.
-/

/-- Code-point lexicographic comparison of character lists: this is how
Python compares strings (and how `sorted` / `list.sort` order them). -/
def charsLe : List Char → List Char → Bool
  | [], _ => true
  | _ :: _, [] => false
  | a :: as, b :: bs =>
    if a.toNat < b.toNat then true
    else if b.toNat < a.toNat then false
    else charsLe as bs

/-- Python `a <= b` on strings. -/
def strLeB (a b : String) : Bool := charsLe a.data b.data

/-- Python `sorted(l)` / `l.sort()` on a list of strings: a stable sort by
code-point order (`List.insertionSort` is stable, like Python's sort). -/
def sortStrings (l : List String) : List String :=
  List.insertionSort (fun a b => strLeB a b = true) l

/-- The list is in ascending code-point order. -/
def sortedStrings (l : List String) : Prop :=
  List.Sorted (fun a b => strLeB a b = true) l

/-- One FHIR search parameter, as in the pydantic model `SearchParameter`
(`name: str`, `type: str | None`, `documentation: str | None = None`). -/
structure SearchParameter where
  name : String
  type : Option String
  documentation : Option String
deriving DecidableEq

/-- Python `l.sort(key=lambda p: p.name)` on search parameters. -/
def sortParams (l : List SearchParameter) : List SearchParameter :=
  List.insertionSort (fun p q => strLeB p.name q.name = true) l

/-- The parameter list is sorted ascending by `name`. -/
def sortedParams (l : List SearchParameter) : Prop :=
  List.Sorted (fun p q => strLeB p.name q.name = true) l

/-- Pydantic model `ResourceMetadata`. -/
structure ResourceMetadata where
  type : String
  profile : Option String
  interactions : List String
  search_params : List SearchParameter
  include_values : List String
  revinclude_values : List String
deriving DecidableEq

/-- Pydantic model `FHIRMetadata`; `resource_metadata` is a Python dict,
modelled as an insertion-ordered association list. -/
structure FHIRMetadata where
  searchable_types : List String
  resource_metadata : List (String × ResourceMetadata)
  fhir_version : Option String
  server_url : String
deriving DecidableEq

/-- Python `d.get(k)` / `k in d` on a dict modelled as an association list. -/
def dictGet {α : Type} : List (String × α) → String → Option α
  | [], _ => none
  | (k1, v) :: rest, k => if k1 = k then some v else dictGet rest k

/-- Python `d[k] = v`: overwrite the value at an existing key, keeping its
insertion position, or append a new binding at the end. -/
def dictSet {α : Type} : List (String × α) → String → α → List (String × α)
  | [], k, v => [(k, v)]
  | (k1, v1) :: rest, k, v =>
    if k1 = k then (k, v) :: rest else (k1, v1) :: dictSet rest k v

/-- One entry of a resource's `interaction` array (a dict with an optional
`code` key, read by `interaction.get('code')`). -/
structure InteractionEntry where
  code : Option String
deriving DecidableEq

/-- One entry of a resource's `searchParam` array, all fields read with
`.get`, hence optional. -/
structure RawSearchParam where
  name : Option String
  type : Option String
  documentation : Option String
deriving DecidableEq

/-- One entry of the server-mode `rest` bucket's `resource` array. -/
structure ResourceEntry where
  type : Option String
  interaction : Option (List InteractionEntry)
  searchParam : Option (List RawSearchParam)
  searchInclude : Option (List String)
  searchRevInclude : Option (List String)
  profile : Option String
deriving DecidableEq

/-- One entry of the capability statement's `rest` array.  `mode` is read
with an unguarded subscript `x['mode']` in the source, so it is kept
optional here to expose the missing-key behaviour. -/
structure RestEntry where
  mode : Option String
  resource : Option (List ResourceEntry)
deriving DecidableEq

/-- The parsed JSON body of `GET {base_url}/metadata`. -/
structure CapabilityStatement where
  rest : Option (List RestEntry)
  fhirVersion : Option String
deriving DecidableEq

/-- The ways `fetch_searchable_resources` can fail after the body parsed:
`schemaError` models the `ValueError`s it raises itself, `keyError` a
`KeyError` escaping from an unguarded subscript, `validationError` a
pydantic validation failure while building the result models. -/
inductive FetchErr where
  | schemaError (msg : String)
  | keyError (key : String)
  | validationError (msg : String)
deriving DecidableEq

/-- `[interaction.get('code') for interaction in resource.get('interaction', [])]`. -/
def interactionCodes (r : ResourceEntry) : List (Option String) :=
  (r.interaction.getD []).map (fun i => i.code)

/-- Building the `SearchParameter` objects for one resource: the first
`searchParam` entry without a `name` makes pydantic reject the model
(`name: str` is required), which aborts the whole fetch. -/
def parseParams : List RawSearchParam → Except FetchErr (List SearchParameter)
  | [] => Except.ok []
  | p :: ps =>
    match p.name with
    | none => Except.error (FetchErr.validationError "SearchParameter.name")
    | some n =>
      match parseParams ps with
      | Except.error e => Except.error e
      | Except.ok rest =>
        Except.ok ({ name := n, type := p.type, documentation := p.documentation } :: rest)

/-- Validation of `interactions: list[str]` in `ResourceMetadata`: an
interaction entry without a `code` yields `None` in the list, which
pydantic rejects. -/
def parseCodes : List (Option String) → Except FetchErr (List String)
  | [] => Except.ok []
  | none :: _ => Except.error (FetchErr.validationError "ResourceMetadata.interactions")
  | some c :: cs =>
    match parseCodes cs with
    | Except.error e => Except.error e
    | Except.ok rest => Except.ok (c :: rest)

/-- `next((x for x in capability_statement['rest'] if x['mode'] == "server"), None)`:
the generator evaluates `x['mode']` on each entry until a server-mode entry
is found, so an entry without a `mode` key raises `KeyError` when reached. -/
def findServer : List RestEntry → Except FetchErr (Option RestEntry)
  | [] => Except.ok none
  | e :: es =>
    match e.mode with
    | none => Except.error (FetchErr.keyError "mode")
    | some m => if m = "server" then Except.ok (some e) else findServer es

/-- The `for resource in server_capability_metadata['resource']` loop,
carried out on an accumulator `(searchable_types, resource_metadata)` to
mirror the Python mutation order.  Resources with a falsy `type` (absent
key or empty string) are skipped; resources without `search-type` among
their interaction codes are skipped; otherwise search parameters are
parsed, sorted by name, and the metadata entry is stored.  The
`searchInclude` / `searchRevInclude` arrays are taken verbatim with
default `[]` (the source does not sort them here). -/
def processResources :
    List ResourceEntry → List String × List (String × ResourceMetadata) →
    Except FetchErr (List String × List (String × ResourceMetadata))
  | [], acc => Except.ok acc
  | r :: rs, acc =>
    match r.type with
    | none => processResources rs acc
    | some t =>
      if t = "" then processResources rs acc
      else if (some "search-type") ∈ interactionCodes r then
        match parseParams (r.searchParam.getD []) with
        | Except.error e => Except.error e
        | Except.ok params =>
          match parseCodes (interactionCodes r) with
          | Except.error e => Except.error e
          | Except.ok codes =>
            processResources rs
              (acc.1 ++ [t],
               dictSet acc.2 t
                 { type := t, profile := r.profile, interactions := codes,
                   search_params := sortParams params,
                   include_values := r.searchInclude.getD [],
                   revinclude_values := r.searchRevInclude.getD [] })
      else processResources rs acc

/-- `fetch_searchable_resources`, from the point where the response body
has been parsed as JSON.  Mirrors the source exactly: the first check is
on truthiness of `rest` (absent or empty), the second on truthiness of
`rest[0].get('resource')` (note: the first entry, not the server-mode
one), then the server-mode entry is located, its `resource` array is
subscripted without a guard, and the resources are processed. -/
def fetchParse (cs : CapabilityStatement) (base_url : String) :
    Except FetchErr FHIRMetadata :=
  match cs.rest with
  | none => Except.error (FetchErr.schemaError "Invalid CapabilityStatement: missing \x27rest\x27 array")
  | some [] => Except.error (FetchErr.schemaError "Invalid CapabilityStatement: missing \x27rest\x27 array")
  | some (h0 :: rest) =>
    if h0.resource = none ∨ h0.resource = some [] then
      Except.error (FetchErr.schemaError "Invalid CapabilityStatement: missing \x27resource\x27 array in rest[0]")
    else
      match findServer (h0 :: rest) with
      | Except.error e => Except.error e
      | Except.ok none =>
        Except.error (FetchErr.schemaError "FHIR server does not expose capability information")
      | Except.ok (some srv) =>
        match srv.resource with
        | none => Except.error (FetchErr.keyError "resource")
        | some resources =>
          match processResources resources ([], []) with
          | Except.error e => Except.error e
          | Except.ok (ts, d) =>
            Except.ok { searchable_types := ts, resource_metadata := d,
                        fhir_version := cs.fhirVersion, server_url := base_url }

/-- Modelled from the spec (testable property for C6): the resource types
a fetch should return, in the spec's words, are exactly the entries of the
server-mode `resource` array that have a (non-empty) `type` and whose
interaction code list contains `search-type`. -/
def searchableTypeOf (r : ResourceEntry) : Option String :=
  match r.type with
  | none => none
  | some t =>
    if t = "" then none
    else if (some "search-type") ∈ interactionCodes r then some t else none

/-- Modelled from the spec (testable property for C6, continued): the full
list of types the fetch should report as searchable. -/
def searchableTypesSpec (resources : List ResourceEntry) : List String :=
  resources.filterMap searchableTypeOf

/-- The error message of `get_search_parameters` for an unknown type:
`f"Resource type '{resource_type}' not found in metadata. Available types
include: {', '.join(sorted(metadata.searchable_types)[:10])}..."`. -/
def notFoundMessage (resource_type : String) (metadata : FHIRMetadata) : String :=
  "Resource type \x27" ++ resource_type ++ "\x27 not found in metadata. Available types include: " ++
    String.intercalate ", " ((sortStrings metadata.searchable_types).take 10) ++ "..."

/-- `get_search_parameters(resource_type, metadata)`: raises `ValueError`
(modelled as `Except.error`) when the type is not a key of
`resource_metadata`, otherwise returns the cached parameter list. -/
def get_search_parameters (resource_type : String) (metadata : FHIRMetadata) :
    Except String (List SearchParameter) :=
  match dictGet metadata.resource_metadata resource_type with
  | none => Except.error (notFoundMessage resource_type metadata)
  | some rm => Except.ok rm.search_params

/-- The inputs `CreateQueryAgent._build_system_prompt` interpolates into
its prompt text: the merged search-parameter catalog and the include /
revinclude value lists for the target type. -/
structure PromptData where
  target_type : String
  available_search_params : List SearchParameter
  available_include_values : List String
  available_revinclude_values : List String
deriving DecidableEq

/-- `CreateQueryAgent._build_system_prompt`, which `__init__` runs at
construction time.  Returns the prompt inputs together with the metadata
as it stands after the call: the source copies `search_params` into a new
list before sorting, but sorts `include_values` and `revinclude_values`
IN PLACE on the `ResourceMetadata` object held by the shared snapshot, so
the returned metadata has those two lists sorted. -/
def buildSystemPrompt (targetType : String) (metadata : FHIRMetadata)
    (common_search_params : List SearchParameter) :
    Except String (PromptData × FHIRMetadata) :=
  match dictGet metadata.resource_metadata targetType with
  | none => Except.error ("Target type " ++ targetType ++ " not found in metadata")
  | some target_type_metadata =>
    let metadata_search_params : List String :=
      target_type_metadata.search_params.map (fun n => n.name)
    let available_search_params : List SearchParameter :=
      sortParams (target_type_metadata.search_params ++
        common_search_params.filter (fun p => !(metadata_search_params.contains p.name)))
    let available_include_values := sortStrings target_type_metadata.include_values
    let available_revinclude_values := sortStrings target_type_metadata.revinclude_values
    let updated : ResourceMetadata :=
      { target_type_metadata with
          include_values := available_include_values,
          revinclude_values := available_revinclude_values }
    Except.ok
      ({ target_type := targetType,
         available_search_params := available_search_params,
         available_include_values := available_include_values,
         available_revinclude_values := available_revinclude_values },
       { metadata with resource_metadata := dictSet metadata.resource_metadata targetType updated })

/-- Pydantic model `SelectedResourceType` (validated instance). -/
structure SelectedResourceType where
  selected_type : String
  confidence : ℚ
  reasoning : String
deriving DecidableEq

/-- Pydantic model `SelectTypeError`. -/
structure SelectTypeError where
  error : String
  reasoning : String
deriving DecidableEq

/-- A candidate as emitted by the model, before pydantic validation. -/
structure RawCandidate where
  selected_type : String
  confidence : ℚ
  reasoning : String
deriving DecidableEq

/-- Raw model output at the type-selection boundary: pydantic-ai coerces
the model response into `list[SelectedResourceType] | SelectTypeError`,
so the raw shape is one of these two. -/
inductive RawSelectionOutput where
  | candidates (items : List RawCandidate)
  | failure (error reasoning : String)
deriving DecidableEq

/-- Field validation of one `SelectedResourceType`: the only constraint in
the model is `confidence: float = Field(ge=0.0, le=1.0)`.  No validator
checks `selected_type` against the metadata. -/
def validateCandidate (c : RawCandidate) : Option SelectedResourceType :=
  if 0 ≤ c.confidence ∧ c.confidence ≤ 1 then
    some { selected_type := c.selected_type, confidence := c.confidence,
           reasoning := c.reasoning }
  else none

/-- Pydantic validation of `list[SelectedResourceType]`: every element
must validate; there is no minimum-length constraint on the list. -/
def validateCandidates : List RawCandidate → Option (List SelectedResourceType)
  | [] => some []
  | c :: cs =>
    match validateCandidate c, validateCandidates cs with
    | some v, some vs => some (v :: vs)
    | _, _ => none

/-- The type-selection output boundary: a raw response is accepted exactly
when it validates against `list[SelectedResourceType] | SelectTypeError`. -/
def validateSelectionOutput :
    RawSelectionOutput → Option (List SelectedResourceType ⊕ SelectTypeError)
  | RawSelectionOutput.candidates items => (validateCandidates items).map Sum.inl
  | RawSelectionOutput.failure e r => some (Sum.inr { error := e, reasoning := r })

/-- Pydantic model `CreateQueryOutput` (validated instance). -/
structure CreateQueryOutput where
  query_string : String
deriving DecidableEq

/-- Pydantic model `CreateQueryError`. -/
structure CreateQueryError where
  error : String
  suggestion : Option String
deriving DecidableEq

/-- Raw model output at the query-synthesis boundary. -/
inductive RawSynthOutput where
  | out (query_string : String)
  | failure (error : String) (suggestion : Option String)
deriving DecidableEq

/-- Python `str.strip()` on the underlying character list. -/
def stripChars (l : List Char) : List Char :=
  ((l.dropWhile Char.isWhitespace).reverse.dropWhile Char.isWhitespace).reverse

/-- Python `str.strip()`. -/
def pstrip (s : String) : String := String.mk (stripChars s.data)

/-- The query-synthesis output boundary:
`query_string: Annotated[str, StringConstraints(min_length=1, strip_whitespace=True)]`
strips the raw string first and then requires at least one character;
`CreateQueryError` has no constraints beyond its field types. -/
def validateSynthOutput : RawSynthOutput → Option (CreateQueryOutput ⊕ CreateQueryError)
  | RawSynthOutput.out s =>
    if 1 ≤ (pstrip s).length then some (Sum.inl { query_string := pstrip s }) else none
  | RawSynthOutput.failure e sg => some (Sum.inr { error := e, suggestion := sg })

/-- Does `needle` occur at the start of `hay`? -/
def listStartsWith : List Char → List Char → Bool
  | _, [] => true
  | [], _ :: _ => false
  | a :: as, b :: bs => a = b && listStartsWith as bs

/-- Does `needle` occur anywhere inside `hay`? -/
def hasSubstring : List Char → List Char → Bool
  | [], needle => needle.isEmpty
  | a :: as, needle => listStartsWith (a :: as) needle || hasSubstring as needle

/-- The module-level `COMMON_SEARCH_PARAMS` catalog (names and types as in
the source; documentation strings elided to `none`, they play no role in
any claim). -/
def COMMON_SEARCH_PARAMS : List SearchParameter :=
  [ { name := "_id", type := some "token", documentation := none },
    { name := "_lastUpdated", type := some "date", documentation := none },
    { name := "_tag", type := some "token", documentation := none },
    { name := "_profile", type := some "reference", documentation := none },
    { name := "_security", type := some "token", documentation := none },
    { name := "_source", type := some "uri", documentation := none },
    { name := "_language", type := some "token", documentation := none },
    { name := "_text", type := some "string", documentation := none },
    { name := "_content", type := some "string", documentation := none },
    { name := "_list", type := some "special", documentation := none },
    { name := "_has", type := some "special", documentation := none },
    { name := "_type", type := some "special", documentation := none },
    { name := "_in", type := some "reference", documentation := none },
    { name := "_filter", type := some "special", documentation := none },
    { name := "_query", type := some "special", documentation := none },
    { name := "_sort", type := some "string", documentation := none },
    { name := "_count", type := some "number", documentation := none },
    { name := "_include", type := some "special", documentation := none },
    { name := "_revinclude", type := some "special", documentation := none },
    { name := "_summary", type := some "code", documentation := none },
    { name := "_elements", type := some "string", documentation := none },
    { name := "_contained", type := some "code", documentation := none },
    { name := "_containedType", type := some "code", documentation := none },
    { name := "_total", type := some "code", documentation := none },
    { name := "_maxresults", type := some "number", documentation := none },
    { name := "_score", type := some "boolean", documentation := none },
    { name := "_graph", type := some "reference", documentation := none } ]

/-- A minimal `ResourceMetadata` for the `Patient` type. -/
def exPatientRM : ResourceMetadata :=
  { type := "Patient", profile := none, interactions := ["search-type"],
    search_params := [{ name := "name", type := some "string", documentation := none }],
    include_values := [], revinclude_values := [] }

/-- A snapshot whose only searchable type is `Patient`. -/
def exMetaPatient : FHIRMetadata :=
  { searchable_types := ["Patient"], resource_metadata := [("Patient", exPatientRM)],
    fhir_version := none, server_url := "https://r4.smarthealthit.org" }

/-- A minimal `ResourceMetadata` for the `Observation` type. -/
def exObservationRM : ResourceMetadata :=
  { type := "Observation", profile := none, interactions := ["search-type"],
    search_params := [], include_values := [], revinclude_values := [] }

/-- A snapshot with two searchable types. -/
def exMetaTwo : FHIRMetadata :=
  { searchable_types := ["Observation", "Patient"],
    resource_metadata := [("Observation", exObservationRM), ("Patient", exPatientRM)],
    fhir_version := none, server_url := "https://r4.smarthealthit.org" }

/-- A snapshot whose `Patient` type advertises the same parameter name
twice — the fetch never deduplicates server-sent `searchParam` names, so
such snapshots arise from servers that list a name twice. -/
def exMetaDup : FHIRMetadata :=
  { searchable_types := ["Patient"],
    resource_metadata := [("Patient",
      { type := "Patient", profile := none, interactions := ["search-type"],
        search_params := [{ name := "a", type := some "string", documentation := none },
                          { name := "a", type := some "token", documentation := none }],
        include_values := [], revinclude_values := [] })],
    fhir_version := none, server_url := "https://r4.smarthealthit.org" }

/-- A `Patient` resource metadata with two distinct parameter names. -/
def exMergeRM : ResourceMetadata :=
  { type := "Patient", profile := none, interactions := ["search-type"],
    search_params := [{ name := "birthdate", type := some "date", documentation := none },
                      { name := "name", type := some "string", documentation := none }],
    include_values := [], revinclude_values := [] }

/-- A snapshot whose `Patient` type has two distinct parameter names. -/
def exMetaMerge : FHIRMetadata :=
  { searchable_types := ["Patient"], resource_metadata := [("Patient", exMergeRM)],
    fhir_version := none, server_url := "https://r4.smarthealthit.org" }

/-- The prompt inputs produced for `exMetaMerge` with `exCommonTwo`: the
duplicate common name `name` is dropped, `_id` is appended, and the merged
list is sorted by name. -/
def exMergePD : PromptData :=
  { target_type := "Patient",
    available_search_params :=
      [{ name := "_id", type := some "token", documentation := none },
       { name := "birthdate", type := some "date", documentation := none },
       { name := "name", type := some "string", documentation := none }],
    available_include_values := [], available_revinclude_values := [] }

/-- A resource metadata with its include / revinclude lists replaced by
sorted copies — the state `_build_system_prompt` leaves behind for the
target type after its two in-place sorts. -/
def sortedIncludesRM (rm : ResourceMetadata) : ResourceMetadata :=
  { rm with include_values := sortStrings rm.include_values,
            revinclude_values := sortStrings rm.revinclude_values }

/-- The prompt inputs produced for `exMetaPatient` with no common params. -/
def exPDPatient : PromptData :=
  { target_type := "Patient",
    available_search_params := [{ name := "name", type := some "string", documentation := none }],
    available_include_values := [], available_revinclude_values := [] }

/-- A two-entry common-parameter catalog, one of whose names collides with
a type-specific parameter of `exMetaMerge`. -/
def exCommonTwo : List SearchParameter :=
  [{ name := "_id", type := some "token", documentation := none },
   { name := "name", type := some "string", documentation := none }]

/-- A `Patient` resource metadata whose include / revinclude lists are
not sorted. -/
def exUnsortedRM : ResourceMetadata :=
  { type := "Patient", profile := none, interactions := ["search-type"],
    search_params := [], include_values := ["b", "a"], revinclude_values := ["d", "c"] }

/-- A snapshot whose `Patient` include / revinclude lists are not sorted. -/
def exMetaUnsorted : FHIRMetadata :=
  { searchable_types := ["Patient"], resource_metadata := [("Patient", exUnsortedRM)],
    fhir_version := none, server_url := "https://r4.smarthealthit.org" }

/-- A resource entry with no fields at all. -/
def exResourceDummy : ResourceEntry :=
  { type := none, interaction := none, searchParam := none,
    searchInclude := none, searchRevInclude := none, profile := none }

/-- A capability statement whose first `rest` entry is a client-mode entry
with a `resource` array, while the server-mode entry has no `resource`. -/
def exCapSrvNoRes : CapabilityStatement :=
  { rest := some [{ mode := some "client", resource := some [exResourceDummy] },
                  { mode := some "server", resource := none }],
    fhirVersion := none }

/-- A capability statement whose non-empty `rest` array has a first entry
carrying a `resource` array but no `mode` key. -/
def exCapNoMode : CapabilityStatement :=
  { rest := some [{ mode := none, resource := some [exResourceDummy] }],
    fhirVersion := none }

/-- A well-formed capability statement: one searchable resource with
unsorted search parameters, one non-searchable resource, one entry
without a type. -/
def exCapValid : CapabilityStatement :=
  { rest := some [{ mode := some "server", resource := some [
      { type := some "Patient",
        interaction := some [{ code := some "read" }, { code := some "search-type" }],
        searchParam := some [
          { name := some "name", type := some "string", documentation := none },
          { name := some "birthdate", type := some "date", documentation := none }],
        searchInclude := none, searchRevInclude := none, profile := none },
      { type := some "Binary",
        interaction := some [{ code := some "read" }],
        searchParam := none, searchInclude := none, searchRevInclude := none,
        profile := none },
      { type := none,
        interaction := some [{ code := some "search-type" }],
        searchParam := none, searchInclude := none, searchRevInclude := none,
        profile := none }] }],
    fhirVersion := some "4.0.1" }

/-- The snapshot `fetchParse` produces from `exCapValid`. -/
def exMetaValid : FHIRMetadata :=
  { searchable_types := ["Patient"],
    resource_metadata := [("Patient",
      { type := "Patient", profile := none, interactions := ["read", "search-type"],
        search_params := [
          { name := "birthdate", type := some "date", documentation := none },
          { name := "name", type := some "string", documentation := none }],
        include_values := [], revinclude_values := [] })],
    fhir_version := some "4.0.1", server_url := "https://r4.smarthealthit.org" }

/-- A well-formed capability statement whose searchable resource carries
an unsorted `searchInclude` array. -/
def exCapInc : CapabilityStatement :=
  { rest := some [{ mode := some "server", resource := some [
      { type := some "Patient",
        interaction := some [{ code := some "search-type" }],
        searchParam := some [],
        searchInclude := some ["b", "a"], searchRevInclude := none,
        profile := none }] }],
    fhirVersion := none }

/-- The snapshot `fetchParse` produces from `exCapInc`: the include list
is passed through verbatim, still unsorted. -/
def exMetaInc : FHIRMetadata :=
  { searchable_types := ["Patient"],
    resource_metadata := [("Patient",
      { type := "Patient", profile := none, interactions := ["search-type"],
        search_params := [], include_values := ["b", "a"], revinclude_values := [] })],
    fhir_version := none, server_url := "https://r4.smarthealthit.org" }

/-- `charsLe` is total. -/
theorem charsLe_total : ∀ x y : List Char, charsLe x y = true ∨ charsLe y x = true
  | [], _ => Or.inl rfl
  | _ :: _, [] => Or.inr rfl
  | a :: as, b :: bs => by
    by_cases h1 : a.toNat < b.toNat
    · left; simp [charsLe, h1]
    · by_cases h2 : b.toNat < a.toNat
      · right; simp [charsLe, h2, h1]
      · rcases charsLe_total as bs with h | h
        · left; simp [charsLe, h1, h2, h]
        · right; simp [charsLe, h1, h2, h]

/-- `charsLe` is transitive. -/
theorem charsLe_trans : ∀ x y z : List Char,
    charsLe x y = true → charsLe y z = true → charsLe x z = true
  | [], _, _, _, _ => rfl
  | _ :: _, [], _, h1, _ => by simp [charsLe] at h1
  | _ :: _, _ :: _, [], _, h2 => by simp [charsLe] at h2
  | a :: as, b :: bs, c :: cs, h1, h2 => by
    have e1 : a.toNat < b.toNat ∨ (a.toNat = b.toNat ∧ charsLe as bs = true) := by
      by_cases hab : a.toNat < b.toNat
      · exact Or.inl hab
      · by_cases hba : b.toNat < a.toNat
        · simp [charsLe, hab, hba] at h1
        · exact Or.inr ⟨by omega, by simpa [charsLe, hab, hba] using h1⟩
    have e2 : b.toNat < c.toNat ∨ (b.toNat = c.toNat ∧ charsLe bs cs = true) := by
      by_cases hbc : b.toNat < c.toNat
      · exact Or.inl hbc
      · by_cases hcb : c.toNat < b.toNat
        · simp [charsLe, hbc, hcb] at h2
        · exact Or.inr ⟨by omega, by simpa [charsLe, hbc, hcb] using h2⟩
    rcases e1 with hab | ⟨hab, hr1⟩ <;> rcases e2 with hbc | ⟨hbc, hr2⟩
    · have hac : a.toNat < c.toNat := by omega
      simp [charsLe, hac]
    · have hac : a.toNat < c.toNat := by omega
      simp [charsLe, hac]
    · have hac : a.toNat < c.toNat := by omega
      simp [charsLe, hac]
    · have hac : a.toNat = c.toNat := by omega
      have hrec := charsLe_trans as bs cs hr1 hr2
      simp [charsLe, hac, Nat.lt_irrefl, hrec]

instance : IsTotal String (fun a b => strLeB a b = true) :=
  ⟨fun a b => charsLe_total a.data b.data⟩

instance : IsTrans String (fun a b => strLeB a b = true) :=
  ⟨fun a b c => charsLe_trans a.data b.data c.data⟩

instance : IsTotal SearchParameter (fun p q => strLeB p.name q.name = true) :=
  ⟨fun p q => charsLe_total p.name.data q.name.data⟩

instance : IsTrans SearchParameter (fun p q => strLeB p.name q.name = true) :=
  ⟨fun p q r => charsLe_trans p.name.data q.name.data r.name.data⟩

/-- `sorted(l)` really is sorted ascending. -/
theorem sortStrings_sorted (l : List String) : sortedStrings (sortStrings l) :=
  List.sorted_insertionSort _ l

/-- `sorted(l)` is a permutation of `l`. -/
theorem sortStrings_perm (l : List String) : List.Perm (sortStrings l) l :=
  List.perm_insertionSort _ l

/-- Sorting an already sorted string list leaves it unchanged. -/
theorem sortStrings_eq_of_sorted {l : List String} (h : sortedStrings l) :
    sortStrings l = l :=
  List.Sorted.insertionSort_eq h

/-- `l.sort(key=lambda p: p.name)` really sorts by name ascending. -/
theorem sortParams_sorted (l : List SearchParameter) : sortedParams (sortParams l) :=
  List.sorted_insertionSort _ l

/-- `l.sort(key=lambda p: p.name)` is a permutation of `l`. -/
theorem sortParams_perm (l : List SearchParameter) : List.Perm (sortParams l) l :=
  List.perm_insertionSort _ l

/-- A prefix of a sorted string list is sorted. -/
theorem sortedStrings_take {l : List String} (h : sortedStrings l) (n : Nat) :
    sortedStrings (l.take n) :=
  List.Pairwise.sublist (List.take_sublist n l) h

/-- Members of `dictSet d k v` come from `d` or are the new binding. -/
theorem mem_dictSet {α : Type} :
    ∀ (d : List (String × α)) (k : String) (v : α) (p : String × α),
      p ∈ dictSet d k v → p ∈ d ∨ p = (k, v)
  | [], k, v, p, hp => by
    simp [dictSet] at hp
    exact Or.inr hp
  | (k1, v1) :: rest, k, v, p, hp => by
    by_cases hk : k1 = k
    · simp [dictSet, hk] at hp
      rcases hp with h | h
      · exact Or.inr (by simp [h])
      · exact Or.inl (by simp [h])
    · simp only [dictSet, if_neg hk, List.mem_cons] at hp
      rcases hp with h | h
      · exact Or.inl (by simp [h])
      · rcases mem_dictSet rest k v p h with h2 | h2
        · exact Or.inl (by simp [h2])
        · exact Or.inr h2

/-- Re-assigning the value a key already holds leaves the dict unchanged. -/
theorem dictSet_self {α : Type} :
    ∀ (d : List (String × α)) (k : String) (v : α),
      dictGet d k = some v → dictSet d k v = d
  | [], k, v, h => by simp [dictGet] at h
  | (k1, v1) :: rest, k, v, h => by
    by_cases hk : k1 = k
    · subst hk
      simp [dictGet] at h
      simp [dictSet, h]
    · simp only [dictGet, if_neg hk] at h
      simp [dictSet, hk, dictSet_self rest k v h]

/-- The only exception the server-mode scan itself can raise is the
`KeyError` for a missing `mode` key. -/
theorem findServer_error : ∀ (l : List RestEntry) (e : FetchErr),
    findServer l = Except.error e → e = FetchErr.keyError "mode"
  | [], e, h => by simp [findServer] at h
  | r :: rs, e, h => by
    cases hm : r.mode with
    | none =>
      simp [findServer, hm] at h
      exact h.symm
    | some m =>
      by_cases hs : m = "server"
      · simp [findServer, hm, hs] at h
      · simp only [findServer, hm, if_neg hs] at h
        exact findServer_error rs e h

/-- The scan returns `None` exactly when every entry has a `mode` key and
none of them is `"server"`. -/
theorem findServer_ok_none_iff : ∀ l : List RestEntry,
    findServer l = Except.ok none ↔ ∀ e ∈ l, ∃ m, e.mode = some m ∧ m ≠ "server"
  | [] => by simp [findServer]
  | r :: rs => by
    cases hm : r.mode with
    | none =>
      simp only [findServer, hm]
      constructor
      · intro h; simp at h
      · intro h
        rcases h r (by simp) with ⟨m, hm2, _⟩
        rw [hm] at hm2
        cases hm2
    | some m =>
      by_cases hs : m = "server"
      · subst hs
        simp only [findServer, hm, if_pos rfl]
        constructor
        · intro h; simp at h
        · intro h
          rcases h r (by simp) with ⟨m2, hm2, hne⟩
          rw [hm] at hm2
          cases hm2
          exact absurd rfl hne
      · simp only [findServer, hm, if_neg hs, findServer_ok_none_iff rs]
        constructor
        · intro h e he
          rcases List.mem_cons.mp he with he | he
          · exact ⟨m, he ▸ hm, hs⟩
          · exact h e he
        · intro h e he
          exact h e (List.mem_cons_of_mem r he)

/-- Parameter parsing only fails with a pydantic validation error. -/
theorem parseParams_error : ∀ (l : List RawSearchParam) (e : FetchErr),
    parseParams l = Except.error e → e = FetchErr.validationError "SearchParameter.name"
  | [], e, h => by simp [parseParams] at h
  | p :: ps, e, h => by
    cases hn : p.name with
    | none =>
      simp [parseParams, hn] at h
      exact h.symm
    | some n =>
      simp only [parseParams, hn] at h
      cases hps : parseParams ps with
      | error e2 =>
        rw [hps] at h
        simp at h
        exact h ▸ parseParams_error ps e2 hps
      | ok rest => rw [hps] at h; simp at h

/-- Interaction-code validation only fails with a pydantic validation error. -/
theorem parseCodes_error : ∀ (l : List (Option String)) (e : FetchErr),
    parseCodes l = Except.error e → e = FetchErr.validationError "ResourceMetadata.interactions"
  | [], e, h => by simp [parseCodes] at h
  | none :: cs, e, h => by
    simp [parseCodes] at h
    exact h.symm
  | some c :: cs, e, h => by
    simp only [parseCodes] at h
    cases hcs : parseCodes cs with
    | error e2 =>
      rw [hcs] at h
      simp at h
      exact h ▸ parseCodes_error cs e2 hcs
    | ok rest => rw [hcs] at h; simp at h

/-- The resource loop never raises one of the `ValueError`s itself: its
only failures are pydantic validation errors. -/
theorem processResources_ne_schemaError :
    ∀ (entries : List ResourceEntry) (acc : List String × List (String × ResourceMetadata))
      (m : String),
      processResources entries acc ≠ Except.error (FetchErr.schemaError m)
  | [], acc, m => by simp [processResources]
  | r :: rs, acc, m => by
    intro h
    rw [processResources] at h
    split at h
    · exact processResources_ne_schemaError rs acc m h
    · split at h
      · exact processResources_ne_schemaError rs acc m h
      · split at h
        · split at h
          · rename_i e hpp
            have he := parseParams_error _ _ hpp
            subst he
            simp at h
          · split at h
            · rename_i e hpc
              have he := parseCodes_error _ _ hpc
              subst he
              simp at h
            · exact processResources_ne_schemaError rs _ m h
        · exact processResources_ne_schemaError rs acc m h

/-- Unfolding `searchableTypesSpec` past an entry without a `type`. -/
theorem searchableTypesSpec_cons_none {r : ResourceEntry} (rs : List ResourceEntry)
    (ht : r.type = none) :
    searchableTypesSpec (r :: rs) = searchableTypesSpec rs := by
  simp [searchableTypesSpec, List.filterMap_cons, searchableTypeOf, ht]

/-- Unfolding `searchableTypesSpec` past an entry with an empty `type`. -/
theorem searchableTypesSpec_cons_empty {r : ResourceEntry} (rs : List ResourceEntry)
    (ht : r.type = some "") :
    searchableTypesSpec (r :: rs) = searchableTypesSpec rs := by
  simp [searchableTypesSpec, List.filterMap_cons, searchableTypeOf, ht]

/-- Unfolding `searchableTypesSpec` past a non-searchable entry. -/
theorem searchableTypesSpec_cons_skip {r : ResourceEntry} (rs : List ResourceEntry)
    {t : String} (ht : r.type = some t)
    (hst : ¬ (some "search-type") ∈ interactionCodes r) :
    searchableTypesSpec (r :: rs) = searchableTypesSpec rs := by
  by_cases he : t = ""
  · subst he; exact searchableTypesSpec_cons_empty rs ht
  · simp [searchableTypesSpec, List.filterMap_cons, searchableTypeOf, ht, he, hst]

/-- Unfolding `searchableTypesSpec` past a searchable entry. -/
theorem searchableTypesSpec_cons_hit {r : ResourceEntry} (rs : List ResourceEntry)
    {t : String} (ht : r.type = some t) (he : ¬ t = "")
    (hst : (some "search-type") ∈ interactionCodes r) :
    searchableTypesSpec (r :: rs) = t :: searchableTypesSpec rs := by
  simp [searchableTypesSpec, List.filterMap_cons, searchableTypeOf, ht, he, hst]

/-- Main invariant of the resource loop: on success, the accumulated
`searchable_types` extends the initial accumulator by exactly the spec's
list, and every binding in the accumulated dict that is not inherited from
the initial accumulator belongs to a searchable entry, carries its
`searchInclude` / `searchRevInclude` arrays verbatim, and has its search
parameters sorted ascending by name. -/
theorem processResources_inv :
    ∀ (entries : List ResourceEntry) (acc out : List String × List (String × ResourceMetadata)),
      processResources entries acc = Except.ok out →
      out.1 = acc.1 ++ searchableTypesSpec entries ∧
      ∀ p ∈ out.2, p ∈ acc.2 ∨
        (p.1 ∈ searchableTypesSpec entries ∧
         sortedParams p.2.search_params ∧
         ∃ r ∈ entries, r.type = some p.1 ∧
           p.2.include_values = r.searchInclude.getD [] ∧
           p.2.revinclude_values = r.searchRevInclude.getD [])
  | [], acc, out, h => by
    simp [processResources] at h
    subst h
    constructor
    · simp [searchableTypesSpec]
    · intro p hp
      exact Or.inl hp
  | r :: rs, acc, out, h => by
    rw [processResources] at h
    split at h
    · rename_i ht
      obtain ⟨ih1, ih2⟩ := processResources_inv rs acc out h
      rw [searchableTypesSpec_cons_none rs ht]
      refine ⟨ih1, ?_⟩
      intro p hp
      rcases ih2 p hp with hl | ⟨hmem, hs, rr, hrr, hprops⟩
      · exact Or.inl hl
      · exact Or.inr ⟨hmem, hs, rr, List.mem_cons_of_mem r hrr, hprops⟩
    · rename_i t ht
      split at h
      · rename_i he
        subst he
        obtain ⟨ih1, ih2⟩ := processResources_inv rs acc out h
        rw [searchableTypesSpec_cons_empty rs ht]
        refine ⟨ih1, ?_⟩
        intro p hp
        rcases ih2 p hp with hl | ⟨hmem, hs, rr, hrr, hprops⟩
        · exact Or.inl hl
        · exact Or.inr ⟨hmem, hs, rr, List.mem_cons_of_mem r hrr, hprops⟩
      · rename_i he
        split at h
        · rename_i hst
          split at h
          · simp at h
          · rename_i params hpp
            split at h
            · simp at h
            · rename_i codes hpc
              obtain ⟨ih1, ih2⟩ := processResources_inv rs _ out h
              rw [searchableTypesSpec_cons_hit rs ht he hst]
              constructor
              · rw [ih1]; simp
              · intro p hp
                rcases ih2 p hp with hl | ⟨hmem, hs, rr, hrr, hprops⟩
                · rcases mem_dictSet acc.2 t _ p hl with h2 | h2
                  · exact Or.inl h2
                  · subst h2
                    refine Or.inr ⟨List.mem_cons_self t _, sortParams_sorted params, r,
                      List.mem_cons_self r rs, ht, rfl, rfl⟩
                · exact Or.inr ⟨List.mem_cons_of_mem t hmem, hs, rr,
                    List.mem_cons_of_mem r hrr, hprops⟩
        · rename_i hst
          obtain ⟨ih1, ih2⟩ := processResources_inv rs acc out h
          rw [searchableTypesSpec_cons_skip rs ht hst]
          refine ⟨ih1, ?_⟩
          intro p hp
          rcases ih2 p hp with hl | ⟨hmem, hs, rr, hrr, hprops⟩
          · exact Or.inl hl
          · exact Or.inr ⟨hmem, hs, rr, List.mem_cons_of_mem r hrr, hprops⟩

/-- Destructuring a successful fetch: on `Except.ok`, there is a
server-mode entry with a `resource` array, the resource loop succeeded
starting from empty accumulators, and version/url are copied over. -/
theorem fetchParse_ok_elim (cs : CapabilityStatement) (url : String) (md : FHIRMetadata)
    (h : fetchParse cs url = Except.ok md) :
    ∃ srv resources,
      findServer (cs.rest.getD []) = Except.ok (some srv) ∧
      srv.resource = some resources ∧
      processResources resources ([], []) = Except.ok (md.searchable_types, md.resource_metadata) ∧
      md.fhir_version = cs.fhirVersion ∧ md.server_url = url := by
  rw [fetchParse] at h
  split at h
  · simp at h
  · simp at h
  · rename_i h0 rest hrest
    split at h
    · simp at h
    · split at h
      · simp at h
      · simp at h
      · rename_i srv hsrv
        split at h
        · simp at h
        · rename_i resources hres
          split at h
          · simp at h
          · rename_i ts d hproc
            refine ⟨srv, resources, ?_, hres, ?_, ?_, ?_⟩
            · rw [hrest]
              simpa using hsrv
            · simp only [Except.ok.injEq] at h
              rw [← h]
              exact hproc
            · simp only [Except.ok.injEq] at h
              rw [← h]
            · simp only [Except.ok.injEq] at h
              rw [← h]

/-- Name counts in the merged catalog are invariant under the final sort. -/
theorem count_names_sortParams (l : List SearchParameter) (n : String) :
    ((sortParams l).map (fun p => p.name)).count n = (l.map (fun p => p.name)).count n :=
  List.Perm.count_eq (List.Perm.map _ (sortParams_perm l)) n

/-- Filtering the common parameters against the type-specific name set
does not change the count of a name that is not in that set. -/
theorem count_names_filter_not_mem (common : List SearchParameter) (names : List String)
    (n : String) (hn : n ∉ names) :
    ((common.filter (fun p => !(names.contains p.name))).map (fun p => p.name)).count n =
      (common.map (fun p => p.name)).count n := by
  simp only [List.contains, List.elem_eq_mem]
  induction common with
  | nil => rfl
  | cons c cs ih =>
    by_cases hc : c.name ∈ names
    · have hne : ¬ c.name = n := fun he => hn (he ▸ hc)
      simp [List.filter_cons, hc, List.count_cons, hne, ih]
    · simp [List.filter_cons, hc, List.count_cons, ih]

/-- A name from the type-specific set never survives the common-parameter
filter. -/
theorem count_names_filter_mem (common : List SearchParameter) (names : List String)
    (n : String) (hn : n ∈ names) :
    ((common.filter (fun p => !(names.contains p.name))).map (fun p => p.name)).count n = 0 := by
  rw [List.count_eq_zero]
  intro hmem
  rcases List.mem_map.mp hmem with ⟨p, hp, hpn⟩
  rcases List.mem_filter.mp hp with ⟨hpc, hpf⟩
  have hnotin : p.name ∉ names := by simpa [List.contains] using hpf
  exact hnotin (by rw [hpn]; exact hn)

/-- Counting names in the merged, deduplicated, sorted parameter list: if
both input name lists are duplicate-free, every type-specific name occurs
exactly once, and so does every common name that is not type-specific. -/
theorem merged_counts_core (tps common : List SearchParameter)
    (hT : (tps.map (fun p => p.name)).Nodup) (hC : (common.map (fun p => p.name)).Nodup) :
    (∀ n ∈ tps.map (fun p => p.name),
      ((sortParams (tps ++ common.filter (fun p =>
          !((tps.map (fun q => q.name)).contains p.name)))).map (fun p => p.name)).count n = 1) ∧
    (∀ n ∈ common.map (fun p => p.name), n ∉ tps.map (fun p => p.name) →
      ((sortParams (tps ++ common.filter (fun p =>
          !((tps.map (fun q => q.name)).contains p.name)))).map (fun p => p.name)).count n = 1) ∧
    sortedParams (sortParams (tps ++ common.filter (fun p =>
      !((tps.map (fun q => q.name)).contains p.name)))) := by
  refine ⟨?_, ?_, sortParams_sorted _⟩
  · intro n hn
    rw [count_names_sortParams, List.map_append, List.count_append]
    rw [List.count_eq_one_of_mem hT hn,
      count_names_filter_mem common (tps.map (fun q => q.name)) n hn]
  · intro n hnC hnT
    rw [count_names_sortParams, List.map_append, List.count_append]
    rw [List.count_eq_zero.mpr hnT,
      count_names_filter_not_mem common (tps.map (fun q => q.name)) n hnT,
      List.count_eq_one_of_mem hC hnC]

/-- Element-wise validation of a candidate list preserves length and
guarantees the confidence bounds on everything it lets through. -/
theorem validateCandidates_ok :
    ∀ (items : List RawCandidate) (out : List SelectedResourceType),
      validateCandidates items = some out →
      out.length = items.length ∧ ∀ c ∈ out, 0 ≤ c.confidence ∧ c.confidence ≤ 1
  | [], out, h => by
    simp [validateCandidates] at h
    subst h
    simp
  | i :: is, out, h => by
    rw [validateCandidates] at h
    split at h
    · rename_i v vs hv hvs
      simp only [Option.some.injEq] at h
      subst h
      obtain ⟨ih1, ih2⟩ := validateCandidates_ok is vs hvs
      rw [validateCandidate] at hv
      split at hv
      · rename_i hb
        simp only [Option.some.injEq] at hv
        subst hv
        constructor
        · simp [ih1]
        · intro c hc
          rcases List.mem_cons.mp hc with hc | hc
          · subst hc
            exact hb
          · exact ih2 c hc
      · simp at hv
    · simp at h

/-- Claim C9 (confirmed): every accepted query-synthesis result is exactly
one of the two variants, and in the success variant the stored
`query_string` is the whitespace-stripped raw string and is non-empty. -/
theorem synthesis_result_variants (raw : RawSynthOutput)
    (r : CreateQueryOutput ⊕ CreateQueryError)
    (h : validateSynthOutput raw = some r) :
    (∃ s o, raw = RawSynthOutput.out s ∧ r = Sum.inl o ∧
      o.query_string = pstrip s ∧ o.query_string ≠ "") ∨
    (∃ e sg, raw = RawSynthOutput.failure e sg ∧
      r = Sum.inr { error := e, suggestion := sg }) := by
  cases raw with
  | out s =>
    left
    simp only [validateSynthOutput] at h
    by_cases hl : 1 ≤ (pstrip s).length
    · rw [if_pos hl] at h
      simp only [Option.some.injEq] at h
      refine ⟨s, { query_string := pstrip s }, rfl, h.symm, rfl, ?_⟩
      intro he
      have h0 : (pstrip s).length = 0 := by
        have : pstrip s = "" := he
        rw [this]
        rfl
      omega
    · rw [if_neg hl] at h
      simp at h
  | failure e sg =>
    right
    simp only [validateSynthOutput, Option.some.injEq] at h
    exact ⟨e, sg, rfl, h.symm⟩

/-- Witness for C9: the raw output `" name=John "` is accepted and lands
in the success variant with its whitespace stripped. -/
theorem synthesis_result_variants_witness :
    (∃ s o, RawSynthOutput.out " name=John " = RawSynthOutput.out s ∧
      (Sum.inl { query_string := "name=John" } : CreateQueryOutput ⊕ CreateQueryError) =
        Sum.inl o ∧ o.query_string = pstrip s ∧ o.query_string ≠ "") ∨
    (∃ e sg, RawSynthOutput.out " name=John " = RawSynthOutput.failure e sg ∧
      (Sum.inl { query_string := "name=John" } : CreateQueryOutput ⊕ CreateQueryError) =
        Sum.inr { error := e, suggestion := sg }) :=
  synthesis_result_variants (RawSynthOutput.out " name=John ")
    (Sum.inl { query_string := "name=John" }) (by decide)

/-- Claim C5 (amended): every accepted type-selection result is exactly
one of the two variants, matching the shape of the raw output, with the
candidate list validated element-wise (its length preserved).  An empty
candidate list is accepted: validation imposes no minimum length. -/
theorem selection_result_variants (raw : RawSelectionOutput)
    (r : List SelectedResourceType ⊕ SelectTypeError)
    (h : validateSelectionOutput raw = some r) :
    (∃ items out, raw = RawSelectionOutput.candidates items ∧ r = Sum.inl out ∧
      out.length = items.length) ∨
    (∃ e reasoning, raw = RawSelectionOutput.failure e reasoning ∧
      r = Sum.inr { error := e, reasoning := reasoning }) := by
  cases raw with
  | candidates items =>
    left
    simp only [validateSelectionOutput] at h
    cases hv : validateCandidates items with
    | none => rw [hv] at h; simp at h
    | some vs =>
      rw [hv] at h
      simp at h
      exact ⟨items, vs, rfl, h.symm, (validateCandidates_ok items vs hv).1⟩
  | failure e rs =>
    right
    simp only [validateSelectionOutput, Option.some.injEq] at h
    exact ⟨e, rs, rfl, h.symm⟩

/-- Witness for C5: a structured failure is accepted and lands in the
error variant. -/
theorem selection_result_variants_witness :
    (∃ items out, RawSelectionOutput.failure "no match" "none of the types fit" =
        RawSelectionOutput.candidates items ∧
      (Sum.inr { error := "no match", reasoning := "none of the types fit" } :
        List SelectedResourceType ⊕ SelectTypeError) = Sum.inl out ∧
      out.length = items.length) ∨
    (∃ e reasoning, RawSelectionOutput.failure "no match" "none of the types fit" =
        RawSelectionOutput.failure e reasoning ∧
      (Sum.inr { error := "no match", reasoning := "none of the types fit" } :
        List SelectedResourceType ⊕ SelectTypeError) =
        Sum.inr { error := e, reasoning := reasoning }) :=
  selection_result_variants (RawSelectionOutput.failure "no match" "none of the types fit")
    (Sum.inr { error := "no match", reasoning := "none of the types fit" }) rfl

/-- Counterexample for C5: the empty candidate list passes validation and
is accepted as a success result, contradicting the claim that a valid
success result is always a non-empty list. -/
theorem selection_empty_list_cex :
    validateSelectionOutput (RawSelectionOutput.candidates []) =
      some (Sum.inl ([] : List SelectedResourceType)) := rfl

/-- Claim C2 (amended): every accepted type-selection success has all its
confidence scores within [0, 1] — this is the only constraint pydantic
enforces; membership of `selected_type` in the snapshot's
`searchable_types` is not validated. -/
theorem selection_confidence_bounds (raw : RawSelectionOutput)
    (out : List SelectedResourceType)
    (h : validateSelectionOutput raw = some (Sum.inl out)) :
    ∀ c ∈ out, 0 ≤ c.confidence ∧ c.confidence ≤ 1 := by
  cases raw with
  | candidates items =>
    simp only [validateSelectionOutput] at h
    cases hv : validateCandidates items with
    | none => rw [hv] at h; simp at h
    | some vs =>
      rw [hv] at h
      simp at h
      subst h
      exact (validateCandidates_ok items _ hv).2
  | failure e rs =>
    simp [validateSelectionOutput] at h

/-- Witness for C2: a well-formed candidate with confidence 1 is accepted
and satisfies the bounds. -/
theorem selection_confidence_bounds_witness :
    0 ≤ ({ selected_type := "Patient", confidence := 1, reasoning := "ok" } :
      SelectedResourceType).confidence ∧
    ({ selected_type := "Patient", confidence := 1, reasoning := "ok" } :
      SelectedResourceType).confidence ≤ 1 :=
  selection_confidence_bounds
    (RawSelectionOutput.candidates
      [{ selected_type := "Patient", confidence := 1, reasoning := "ok" }])
    [{ selected_type := "Patient", confidence := 1, reasoning := "ok" }] (by decide)
    { selected_type := "Patient", confidence := 1, reasoning := "ok" } (by simp)

/-- Counterexample for C2: a candidate whose `selected_type` is not among
the queried snapshot's `searchable_types` is still accepted — validation
never consults the metadata. -/
theorem selection_membership_cex :
    validateSelectionOutput (RawSelectionOutput.candidates
      [{ selected_type := "Unicorn", confidence := 1, reasoning := "r" }]) =
      some (Sum.inl [{ selected_type := "Unicorn", confidence := 1, reasoning := "r" }]) ∧
    "Unicorn" ∉ exMetaPatient.searchable_types := by
  constructor
  · decide
  · decide

/-- Claim C10 (confirmed): a well-formed capability statement with a
non-empty `rest` array whose first entry has a `resource` array, but with
an entry lacking a `mode` key, makes the fetch fail with a `KeyError`
from the unguarded `x['mode']` lookup, not a `SchemaError`. -/
theorem fetch_missing_mode_keyError :
    fetchParse exCapNoMode "https://r4.smarthealthit.org" =
      Except.error (FetchErr.keyError "mode") := rfl

/-- Claim C1 (amended): for a target type present in the snapshot, if the
type-specific parameter names are pairwise distinct and the common
catalog's names are pairwise distinct, then the merged catalog built at
synthesizer construction contains every type-specific name exactly once,
every common name absent from the type-specific set exactly once, and is
sorted ascending by name.  (Without the distinctness assumption the
"exactly once" part fails: the merge never deduplicates the
type-specific list itself, see the counterexample.) -/
theorem merged_catalog_counts (targetType : String) (md : FHIRMetadata)
    (common : List SearchParameter) (pd : PromptData) (md2 : FHIRMetadata)
    (rm : ResourceMetadata)
    (hrm : dictGet md.resource_metadata targetType = some rm)
    (hT : (rm.search_params.map (fun p => p.name)).Nodup)
    (hC : (common.map (fun p => p.name)).Nodup)
    (h : buildSystemPrompt targetType md common = Except.ok (pd, md2)) :
    (∀ n ∈ rm.search_params.map (fun p => p.name),
      (pd.available_search_params.map (fun p => p.name)).count n = 1) ∧
    (∀ n ∈ common.map (fun p => p.name), n ∉ rm.search_params.map (fun p => p.name) →
      (pd.available_search_params.map (fun p => p.name)).count n = 1) ∧
    sortedParams pd.available_search_params := by
  rw [buildSystemPrompt] at h
  split at h
  · simp at h
  · rename_i tm htm
    rw [hrm] at htm
    injection htm with htm
    subst htm
    simp only [Except.ok.injEq, Prod.mk.injEq] at h
    obtain ⟨hpd, _⟩ := h
    subst hpd
    exact merged_counts_core rm.search_params common hT hC

/-- Witness for C1: merging `exMergeRM`'s parameters with `exCommonTwo`
drops the colliding `name`, keeps `_id`, and sorts. -/
theorem merged_catalog_counts_witness :
    (∀ n ∈ exMergeRM.search_params.map (fun p => p.name),
      (exMergePD.available_search_params.map (fun p => p.name)).count n = 1) ∧
    (∀ n ∈ exCommonTwo.map (fun p => p.name),
        n ∉ exMergeRM.search_params.map (fun p => p.name) →
      (exMergePD.available_search_params.map (fun p => p.name)).count n = 1) ∧
    sortedParams exMergePD.available_search_params :=
  merged_catalog_counts "Patient" exMetaMerge exCommonTwo exMergePD exMetaMerge exMergeRM
    (by decide) (by decide) (by decide) (by rfl)

/-- Counterexample for C1: a snapshot whose `Patient` type advertises the
name `a` twice yields a merged catalog in which `a` occurs twice, not
exactly once — the claim's "every name of the type-specific search_params
exactly once" fails on duplicated server-sent names. -/
theorem merged_catalog_cex :
    (buildSystemPrompt "Patient" exMetaDup COMMON_SEARCH_PARAMS).map
        (fun r => (r.1.available_search_params.map (fun p => p.name)).count "a") =
      Except.ok 2 := rfl

/-- Claim C3 (amended): constructing a query synthesizer for a target
type present in the snapshot leaves `searchable_types`, `fhir_version`
and `server_url` unchanged, but replaces the target type's
`include_values` / `revinclude_values` with their sorted versions, in
place on the shared snapshot.  Only when both lists were already sorted
is the snapshot left unchanged. -/
theorem synth_construction_frame (targetType : String) (md : FHIRMetadata)
    (common : List SearchParameter) (pd : PromptData) (md2 : FHIRMetadata)
    (rm : ResourceMetadata)
    (hrm : dictGet md.resource_metadata targetType = some rm)
    (h : buildSystemPrompt targetType md common = Except.ok (pd, md2)) :
    md2.searchable_types = md.searchable_types ∧
    md2.fhir_version = md.fhir_version ∧
    md2.server_url = md.server_url ∧
    md2.resource_metadata = dictSet md.resource_metadata targetType (sortedIncludesRM rm) ∧
    (sortedStrings rm.include_values → sortedStrings rm.revinclude_values → md2 = md) := by
  rw [buildSystemPrompt] at h
  split at h
  · simp at h
  · rename_i tm htm
    rw [hrm] at htm
    injection htm with htm
    subst htm
    simp only [Except.ok.injEq, Prod.mk.injEq] at h
    obtain ⟨_, hmd2⟩ := h
    subst hmd2
    refine ⟨rfl, rfl, rfl, rfl, ?_⟩
    intro hinc hrev
    have e2 : sortedIncludesRM rm = rm := by
      rw [sortedIncludesRM, sortStrings_eq_of_sorted hinc, sortStrings_eq_of_sorted hrev]
    have e3 : dictSet md.resource_metadata targetType (sortedIncludesRM rm) =
        md.resource_metadata := by
      rw [e2]
      exact dictSet_self md.resource_metadata targetType rm hrm
    show ({ md with resource_metadata := dictSet md.resource_metadata targetType (sortedIncludesRM rm) } : FHIRMetadata) = md
    rw [e3]

/-- Witness for C3: on `exMetaPatient`, whose include / revinclude lists
are empty (hence sorted), construction leaves the snapshot unchanged. -/
theorem synth_construction_frame_witness :
    exMetaPatient.searchable_types = exMetaPatient.searchable_types ∧
    exMetaPatient.fhir_version = exMetaPatient.fhir_version ∧
    exMetaPatient.server_url = exMetaPatient.server_url ∧
    exMetaPatient.resource_metadata =
      dictSet exMetaPatient.resource_metadata "Patient" (sortedIncludesRM exPatientRM) ∧
    (sortedStrings exPatientRM.include_values → sortedStrings exPatientRM.revinclude_values →
      exMetaPatient = exMetaPatient) :=
  synth_construction_frame "Patient" exMetaPatient [] exPDPatient exMetaPatient exPatientRM
    (by decide) (by rfl)

/-- Counterexample for C3: on a snapshot whose `Patient` include and
revinclude lists are unsorted, synthesizer construction hands back a
snapshot whose `resource_metadata` differs from the original — the
in-place sorts have mutated the shared metadata. -/
theorem synth_construction_mutates_cex :
    buildSystemPrompt "Patient" exMetaUnsorted [] =
      Except.ok ({ target_type := "Patient", available_search_params := [],
                   available_include_values := ["a", "b"],
                   available_revinclude_values := ["c", "d"] },
        { searchable_types := ["Patient"],
          resource_metadata := [("Patient", sortedIncludesRM exUnsortedRM)],
          fhir_version := none, server_url := "https://r4.smarthealthit.org" }) ∧
    [("Patient", sortedIncludesRM exUnsortedRM)] ≠ exMetaUnsorted.resource_metadata := by
  constructor
  · rfl
  · decide

/-- When the first `rest` entry has a truthy `resource` array and the
mode scan does not end in "no server found", none of the amended
`SchemaError` conditions holds. -/
theorem schemaError_conditions_aux (h0 : RestEntry) (t : List RestEntry)
    (hres : ¬ (h0.resource = none ∨ h0.resource = some []))
    (hns : findServer (h0 :: t) ≠ Except.ok none) :
    ¬ ((some (h0 :: t) : Option (List RestEntry)) = none ∨
       (some (h0 :: t) : Option (List RestEntry)) = some [] ∨
       (∃ h1 t1, (some (h0 :: t) : Option (List RestEntry)) = some (h1 :: t1) ∧
         (h1.resource = none ∨ h1.resource = some [])) ∨
       (∀ e ∈ (some (h0 :: t) : Option (List RestEntry)).getD [],
         ∃ m, e.mode = some m ∧ m ≠ "server")) := by
  intro hrhs
  rcases hrhs with h1 | h2 | ⟨h1, t1, hx, hresx⟩ | h4
  · simp at h1
  · simp at h2
  · injection hx with hx
    injection hx with hx1 hx2
    subst hx1
    exact hres hresx
  · exact hns ((findServer_ok_none_iff (h0 :: t)).mpr (by simpa using h4))

/-- Claim C4 (amended): after parsing, the fetch fails with a
`SchemaError` (a `ValueError` of its own) exactly when the `rest` array
is absent or empty, or the FIRST `rest` entry's `resource` array is
absent or empty (the check inspects `rest[0]`, not the server-mode
entry), or every `rest` entry has a `mode` key and none of them is
`"server"`.  A `rest` entry lacking `mode` before any server entry, or a
server-mode entry lacking `resource`, raise `KeyError` instead. -/
theorem fetch_schemaError_iff (cs : CapabilityStatement) (url : String) :
    (∃ m, fetchParse cs url = Except.error (FetchErr.schemaError m)) ↔
      (cs.rest = none ∨ cs.rest = some [] ∨
       (∃ h1 t1, cs.rest = some (h1 :: t1) ∧ (h1.resource = none ∨ h1.resource = some [])) ∨
       (∀ e ∈ cs.rest.getD [], ∃ m, e.mode = some m ∧ m ≠ "server")) := by
  cases hrest : cs.rest with
  | none =>
    constructor
    · intro _
      exact Or.inl rfl
    · intro _
      exact ⟨"Invalid CapabilityStatement: missing \x27rest\x27 array", by simp [fetchParse, hrest]⟩
  | some l =>
    cases l with
    | nil =>
      constructor
      · intro _
        exact Or.inr (Or.inl rfl)
      · intro _
        exact ⟨"Invalid CapabilityStatement: missing \x27rest\x27 array", by simp [fetchParse, hrest]⟩
    | cons h0 t =>
      simp only [fetchParse, hrest]
      by_cases hres : h0.resource = none ∨ h0.resource = some []
      · rw [if_pos hres]
        constructor
        · intro _
          exact Or.inr (Or.inr (Or.inl ⟨h0, t, rfl, hres⟩))
        · intro _
          exact ⟨"Invalid CapabilityStatement: missing \x27resource\x27 array in rest[0]", rfl⟩
      · rw [if_neg hres]
        cases hfs : findServer (h0 :: t) with
        | error e =>
          simp only [hfs]
          have he := findServer_error _ _ hfs
          subst he
          constructor
          · intro h
            obtain ⟨m, hm⟩ := h
            simp at hm
          · intro hrhs
            exact absurd hrhs (schemaError_conditions_aux h0 t hres (by simp [hfs]))
        | ok o =>
          cases o with
          | none =>
            simp only [hfs]
            have hall := (findServer_ok_none_iff (h0 :: t)).mp hfs
            constructor
            · intro _
              refine Or.inr (Or.inr (Or.inr ?_))
              simpa using hall
            · intro _
              exact ⟨"FHIR server does not expose capability information", rfl⟩
          | some srv =>
            simp only [hfs]
            have hns : findServer (h0 :: t) ≠ Except.ok none := by simp [hfs]
            cases hsr : srv.resource with
            | none =>
              simp only [hsr]
              constructor
              · intro h
                obtain ⟨m, hm⟩ := h
                simp at hm
              · intro hrhs
                exact absurd hrhs (schemaError_conditions_aux h0 t hres hns)
            | some resources =>
              simp only [hsr]
              cases hpr : processResources resources ([], []) with
              | error e =>
                simp only [hpr]
                constructor
                · intro h
                  obtain ⟨m, hm⟩ := h
                  simp only [Except.error.injEq] at hm
                  subst hm
                  exact absurd hpr (processResources_ne_schemaError resources ([], []) m)
                · intro hrhs
                  exact absurd hrhs (schemaError_conditions_aux h0 t hres hns)
              | ok pr =>
                simp only [hpr]
                obtain ⟨ts, d⟩ := pr
                constructor
                · intro h
                  obtain ⟨m, hm⟩ := h
                  simp at hm
                · intro hrhs
                  exact absurd hrhs (schemaError_conditions_aux h0 t hres hns)

/-- Counterexample for C4: a capability statement whose server-mode entry
lacks its `resource` array — the claim says this fails with a
`SchemaError`, but because the guard inspected `rest[0]` (a client-mode
entry that does have `resource`), the fetch instead dies with a
`KeyError` on the server entry's missing `resource` key. -/
theorem fetch_schemaError_cex :
    fetchParse exCapSrvNoRes "https://r4.smarthealthit.org" =
      Except.error (FetchErr.keyError "resource") := rfl

/-- Claim C6 (confirmed): on every successful fetch, the reported
`searchable_types` are exactly the server-mode entries with a (non-empty)
`type` whose interaction code list contains `search-type`; every stored
metadata entry belongs to such a type, and its `search_params` are sorted
ascending by name. -/
theorem fetch_searchable_exact (cs : CapabilityStatement) (url : String) (md : FHIRMetadata)
    (h : fetchParse cs url = Except.ok md) :
    ∃ srv resources,
      findServer (cs.rest.getD []) = Except.ok (some srv) ∧
      srv.resource = some resources ∧
      md.searchable_types = searchableTypesSpec resources ∧
      ∀ p ∈ md.resource_metadata, p.1 ∈ md.searchable_types ∧
        sortedParams p.2.search_params := by
  obtain ⟨srv, resources, hfs, hsr, hproc, _, _⟩ := fetchParse_ok_elim cs url md h
  obtain ⟨h1, h2⟩ := processResources_inv resources ([], []) _ hproc
  have hts : md.searchable_types = searchableTypesSpec resources := by simpa using h1
  refine ⟨srv, resources, hfs, hsr, hts, ?_⟩
  intro p hp
  rcases h2 p hp with hl | ⟨hmem, hs, _, _, _⟩
  · simp at hl
  · exact ⟨by rw [hts]; exact hmem, hs⟩

/-- Witness for C6: the fetch of `exCapValid` returns exactly `Patient`
(the `Binary` resource lacks `search-type`, the third entry lacks a
type), with `Patient`'s parameters sorted. -/
theorem fetch_searchable_exact_witness :
    ∃ srv resources,
      findServer (exCapValid.rest.getD []) = Except.ok (some srv) ∧
      srv.resource = some resources ∧
      exMetaValid.searchable_types = searchableTypesSpec resources ∧
      ∀ p ∈ exMetaValid.resource_metadata, p.1 ∈ exMetaValid.searchable_types ∧
        sortedParams p.2.search_params :=
  fetch_searchable_exact exCapValid "https://r4.smarthealthit.org" exMetaValid rfl

/-- Claim C7 (amended): for a type absent from the snapshot,
`get_search_parameters` fails with the not-found `ValueError` whose
message embeds a lexically sorted sample of at most ten alternative type
names, and query-synthesizer construction fails immediately (inside
`__init__`, via `_build_system_prompt`) — but the construction-time
message names only the missing type, without any sample of
alternatives. -/
theorem not_found_errors (rt : String) (md : FHIRMetadata) (common : List SearchParameter)
    (h : dictGet md.resource_metadata rt = none) :
    get_search_parameters rt md = Except.error (notFoundMessage rt md) ∧
    ((sortStrings md.searchable_types).take 10).length ≤ 10 ∧
    sortedStrings ((sortStrings md.searchable_types).take 10) ∧
    buildSystemPrompt rt md common =
      Except.error ("Target type " ++ rt ++ " not found in metadata") := by
  refine ⟨?_, List.length_take_le _ _, sortedStrings_take (sortStrings_sorted _) 10, ?_⟩
  · simp only [get_search_parameters, h]
  · simp only [buildSystemPrompt, h]

/-- Witness for C7: the type `Zed` is absent from `exMetaTwo`. -/
theorem not_found_errors_witness :
    get_search_parameters "Zed" exMetaTwo = Except.error (notFoundMessage "Zed" exMetaTwo) ∧
    ((sortStrings exMetaTwo.searchable_types).take 10).length ≤ 10 ∧
    sortedStrings ((sortStrings exMetaTwo.searchable_types).take 10) ∧
    buildSystemPrompt "Zed" exMetaTwo [] =
      Except.error ("Target type " ++ "Zed" ++ " not found in metadata") :=
  not_found_errors "Zed" exMetaTwo [] (by decide)

/-- Counterexample for C7: against `exMetaTwo` (valid types `Observation`
and `Patient`), the construction-time error message is a fixed sentence
that contains neither valid type name — it includes no sample of
alternatives, contrary to the claim. -/
theorem not_found_message_cex :
    buildSystemPrompt "Zed" exMetaTwo COMMON_SEARCH_PARAMS =
      Except.error "Target type Zed not found in metadata" ∧
    hasSubstring "Target type Zed not found in metadata".data "Patient".data = false ∧
    hasSubstring "Target type Zed not found in metadata".data "Observation".data = false := by
  refine ⟨rfl, by decide, by decide⟩

/-- Claim C8 (amended): on every successful fetch, each stored type's
`include_values` / `revinclude_values` are the server's `searchInclude` /
`searchRevInclude` arrays taken verbatim — in server order, NOT sorted —
defaulting to the empty list when the array is absent.  (They are only
sorted later, in place, during synthesizer construction.) -/
theorem fetch_includes_verbatim (cs : CapabilityStatement) (url : String) (md : FHIRMetadata)
    (h : fetchParse cs url = Except.ok md) :
    ∃ srv resources,
      findServer (cs.rest.getD []) = Except.ok (some srv) ∧
      srv.resource = some resources ∧
      ∀ p ∈ md.resource_metadata, ∃ r ∈ resources, r.type = some p.1 ∧
        p.2.include_values = r.searchInclude.getD [] ∧
        p.2.revinclude_values = r.searchRevInclude.getD [] := by
  obtain ⟨srv, resources, hfs, hsr, hproc, _, _⟩ := fetchParse_ok_elim cs url md h
  obtain ⟨_, h2⟩ := processResources_inv resources ([], []) _ hproc
  refine ⟨srv, resources, hfs, hsr, ?_⟩
  intro p hp
  rcases h2 p hp with hl | ⟨_, _, rr, hrr, hty, hinc, hrev⟩
  · simp at hl
  · exact ⟨rr, hrr, hty, hinc, hrev⟩

/-- Witness for C8: the fetch of `exCapInc` stores `Patient`'s include
list verbatim. -/
theorem fetch_includes_verbatim_witness :
    ∃ srv resources,
      findServer (exCapInc.rest.getD []) = Except.ok (some srv) ∧
      srv.resource = some resources ∧
      ∀ p ∈ exMetaInc.resource_metadata, ∃ r ∈ resources, r.type = some p.1 ∧
        p.2.include_values = r.searchInclude.getD [] ∧
        p.2.revinclude_values = r.searchRevInclude.getD [] :=
  fetch_includes_verbatim exCapInc "https://r4.smarthealthit.org" exMetaInc rfl

/-- Counterexample for C8: `exCapInc` advertises `searchInclude`
`["b", "a"]`; the returned snapshot carries exactly that list, which is
not sorted ascending — the fetch does not sort include values. -/
theorem fetch_include_unsorted_cex :
    fetchParse exCapInc "https://r4.smarthealthit.org" = Except.ok exMetaInc ∧
    (dictGet exMetaInc.resource_metadata "Patient").map
      (fun rm => rm.include_values) = some ["b", "a"] ∧
    ¬ sortedStrings ["b", "a"] := by
  refine ⟨rfl, rfl, ?_⟩
  show ¬ List.Sorted (fun a b => strLeB a b = true) ["b", "a"]
  decide
